import Mathlib

/-!
# FlickPick session coordinator — verification development

Shallow embedding of the FlickPick real-time session coordinator
(socket handlers in `pages/api/socket.ts`, of which the repository ships
two variants, referred to below as the `part000` and `part001` variants,
plus the HTTP vote route) together with proofs about the embedded
operations.

Conventions.  JavaScript strings are Lean `String`s; a value that may be
`undefined` (or of a non-string type) at a use site is an
`Option String`, with `none` standing for the missing/ill-typed case and
the empty string kept separate because JS treats `""` as falsy exactly
where the handlers test `!x`.  The Firestore-backed store
(`lib/database`) and the in-memory participant registry (`lib/socket`)
are not part of the provided sources; where their behaviour decides a
property they are modelled from the spec (their doc comments say so).
-/

namespace FlickPick

/-- A vote verdict, `'like' | 'dislike'` in the source. -/
inductive Verdict where
  | like
  | dislike
deriving DecidableEq, Repr, BEq

/-- A film as the socket layer sees it (fields of `Film` from
`lib/database` that the handlers read; the floating-point `rating` and
the presentational `poster`/`description`/`addedAt` fields are carried
nowhere into any decision and are omitted). -/
structure Film where
  id : String
  kinopoiskId : Nat
  title : String
  addedBy : String
deriving DecidableEq, Repr, BEq

/-- A vote as `calculateResults` consumes it: `filmId` is the film's
`kinopoiskId`, `participantId` the voter's display name. -/
structure Vote where
  filmId : Nat
  vote : Verdict
  participantId : String
deriving DecidableEq, Repr, BEq

/-- Number of `like` votes recorded for the film with kinopoisk id
`fid` — the `likes` counter of the `votesByFilm` entry built by
`calculateResults`. -/
def countLikes (votes : List Vote) (fid : Nat) : Nat :=
  (votes.filter (fun v => v.filmId == fid && v.vote == Verdict.like)).length

/-- Number of `dislike` votes recorded for film `fid` — the `dislikes`
counter of the `votesByFilm` entry. -/
def countDislikes (votes : List Vote) (fid : Nat) : Nat :=
  (votes.filter (fun v => v.filmId == fid && v.vote == Verdict.dislike)).length

/-- `voters` list of the `votesByFilm` entry for film `fid`: voter names
in first-vote order, deduplicated exactly as the source pushes a voter
only when not already present. -/
def votersFor (votes : List Vote) (fid : Nat) : List String :=
  votes.foldl
    (fun acc v =>
      if v.filmId == fid then (if v.participantId ∈ acc then acc else acc ++ [v.participantId])
      else acc) []

/-- Whether `votesByFilm` has an entry for film `fid`, i.e. some vote
references it (`if (!filmVotes) return;` skips films without one). -/
def hasVotesFor (votes : List Vote) (fid : Nat) : Bool :=
  votes.any (fun v => v.filmId == fid)

/-- One step of the `films.forEach` loop of `calculateResults`, updating
the pair of mutable accumulators `(superMatch, bestMatch)`. -/
def resultsStep (votes : List Vote) (participants : List String)
    (acc : Option (Film × List String) × Option (Film × Nat × List String)) (film : Film) :
    Option (Film × List String) × Option (Film × Nat × List String) :=
  if hasVotesFor votes film.kinopoiskId then
    let likes := countLikes votes film.kinopoiskId
    let dislikes := countDislikes votes film.kinopoiskId
    let voters := votersFor votes film.kinopoiskId
    let sm := if likes == participants.length && dislikes == 0 then some (film, voters) else acc.1
    let bm :=
      match acc.2 with
      | none => some (film, likes, voters)
      | some (_, bl, _) => if likes > bl then some (film, likes, voters) else acc.2
    (sm, bm)
  else acc

/-- Result record of `calculateResults`. -/
structure VotingResults where
  superMatch : Option (Film × List String)
  bestMatch : Option (Film × Nat × List String)
  totalParticipants : Nat
  votedParticipants : Nat
deriving DecidableEq, Repr, BEq

/-- `calculateResults(votes, films, participants)` from the socket
handler (identical in both shipped variants): one pass over `films`
updating `superMatch`/`bestMatch`, plus the participant tallies. -/
def calculateResults (votes : List Vote) (films : List Film) (participants : List String) :
    VotingResults :=
  let acc := films.foldl (resultsStep votes participants) (none, none)
  { superMatch := acc.1
    bestMatch := acc.2
    totalParticipants := participants.length
    votedParticipants :=
      if votes.length > 0 then ((votes.map (fun v => v.participantId)).dedup).length else 0 }

/-- The super-match test of the loop body: the film has a `votesByFilm`
entry whose `likes` equals the participant count and whose `dislikes`
is zero. -/
def superQualifies (votes : List Vote) (participants : List String) (film : Film) : Bool :=
  hasVotesFor votes film.kinopoiskId &&
    countLikes votes film.kinopoiskId == participants.length &&
    countDislikes votes film.kinopoiskId == 0

/-- The `superMatch` component of the loop body of `calculateResults`,
on its own accumulator (the loop mutates `superMatch` and `bestMatch`
independently). -/
def smStep (votes : List Vote) (participants : List String)
    (acc : Option (Film × List String)) (film : Film) : Option (Film × List String) :=
  if superQualifies votes participants film then some (film, votersFor votes film.kinopoiskId)
  else acc

/-- The `bestMatch` component of the loop body of `calculateResults`. -/
def bmStep (votes : List Vote) (acc : Option (Film × Nat × List String)) (film : Film) :
    Option (Film × Nat × List String) :=
  if hasVotesFor votes film.kinopoiskId then
    match acc with
    | none => some (film, countLikes votes film.kinopoiskId, votersFor votes film.kinopoiskId)
    | some (bf, bl, bvs) =>
      if countLikes votes film.kinopoiskId > bl then
        some (film, countLikes votes film.kinopoiskId, votersFor votes film.kinopoiskId)
      else some (bf, bl, bvs)
  else acc

/-- A persisted session (`groups` collection): code, ordered roster of
display names, creator name. -/
structure Group where
  id : String
  code : String
  participants : List String
  createdBy : String
deriving DecidableEq, Repr, BEq

/-- A persisted film row: which session it belongs to plus the film. -/
structure FilmRow where
  groupId : String
  film : Film
deriving DecidableEq, Repr, BEq

/-- A persisted vote row: `(groupId, filmId, participantId)` identity
plus the verdict. -/
structure VoteRow where
  groupId : String
  filmId : Nat
  vote : Verdict
  participantId : String
deriving DecidableEq, Repr, BEq

/-- The persisted store (the narrow CRUD collaborator). -/
structure Store where
  groups : List Group
  films : List FilmRow
  votes : List VoteRow
deriving DecidableEq, Repr, BEq

/-- Modelled from the spec: `getGroupByCode` of `lib/database` is not
under `src`; per the Store Adapter contract it returns the session with
the given code, if any. -/
def getGroupByCode (s : Store) (code : String) : Option Group :=
  s.groups.find? (fun g => g.code == code)

/-- Modelled from the spec: `getFilmsByGroup` of `lib/database` — the
film catalog of one session. -/
def getFilmsByGroup (s : Store) (gid : String) : List Film :=
  (s.films.filter (fun r => r.groupId == gid)).map (fun r => r.film)

/-- Modelled from the spec: `getVotesByGroup` of `lib/database` — the
vote rows of one session, as `calculateResults` consumes them. -/
def getVotesByGroup (s : Store) (gid : String) : List Vote :=
  (s.votes.filter (fun r => r.groupId == gid)).map
    (fun r => { filmId := r.filmId, vote := r.vote, participantId := r.participantId })

/-- Modelled from the spec: `updateGroup(id, patch)` of `lib/database`,
specialised to the `participants` patch the handlers issue. -/
def updateGroupParticipants (s : Store) (gid : String) (ps : List String) : Store :=
  { s with groups := s.groups.map (fun g => if g.id == gid then { g with participants := ps } else g) }

/-- Modelled from the spec: `updateGroup(id, patch)` of `lib/database`,
specialised to the `createdBy` patch the disconnect handler issues. -/
def updateGroupCreatedBy (s : Store) (gid : String) (creator : String) : Store :=
  { s with groups := s.groups.map (fun g => if g.id == gid then { g with createdBy := creator } else g) }

/-- Modelled from the spec: `deleteFilmsByGroup` of `lib/database` —
bulk-deletes the session's film rows. -/
def deleteFilmsByGroup (s : Store) (gid : String) : Store :=
  { s with films := s.films.filter (fun r => r.groupId != gid) }

/-- Modelled from the spec: `deleteVotesByGroup` of `lib/database` —
bulk-deletes the session's vote rows. -/
def deleteVotesByGroup (s : Store) (gid : String) : Store :=
  { s with votes := s.votes.filter (fun r => r.groupId != gid) }

/-- Two vote rows address the same `(session, film, participant)`
composite identity. -/
def sameVoteKey (a b : VoteRow) : Bool :=
  a.groupId == b.groupId && a.filmId == b.filmId && a.participantId == b.participantId

/-- Modelled from the spec: `addVotes(votes[])` of `lib/database` is not
under `src` (the POST votes route only calls it); per the spec's
invariant — at most one Vote per (participant, film), a repeat vote
overwrites the prior verdict — each incoming row upserts on its
composite key, last write winning. -/
def addVotes (s : Store) (rows : List VoteRow) : Store :=
  rows.foldl
    (fun st v => { st with votes := st.votes.filter (fun w => !(sameVoteKey w v)) ++ [v] }) s

/-- The stored vote row for a `(session, film, participant)` key, if
any. -/
def findVote (s : Store) (gid : String) (fid : Nat) (pid : String) : Option VoteRow :=
  s.votes.find? (fun w => w.groupId == gid && w.filmId == fid && w.participantId == pid)

/-- Delivery target of one `emit` call: `toSelf` is `socket.emit`,
`toOthers` is `socket.to(room).emit` (sender excluded), `toRoom` is
`io.to(room).emit` (everyone in the room, sender included). -/
inductive Target where
  | toSelf
  | toOthers
  | toRoom
deriving DecidableEq, Repr, BEq

/-- Server-to-client events the embedded handlers emit. -/
inductive Event where
  | participantJoined (participant : String) (participants : List String)
  | participantLeft (participant : String) (participants : List String)
  | filmsSnapshot (films : List Film)
  | votingStarted
  | voteCast (participant : Option String) (filmId : Nat) (verdict : Verdict)
  | votingProgress (participant : String) (completedCount totalCount : Nat)
  | allCompleted (results : VotingResults)
  | creatorChanged (newCreator : String) (message : String)
  | groupReset (message : String)
  | errorNote (message : String)
deriving DecidableEq, Repr, BEq

/-- A connection other than the sender, in the same room, receives `e`:
it is delivered by a `toOthers` or a `toRoom` emission. -/
def deliveredToOthers (es : List (Target × Event)) (e : Event) : Bool :=
  es.any (fun te => (te.1 == Target.toOthers || te.1 == Target.toRoom) && te.2 == e)

/-- The originating connection itself receives `e`: it is delivered by
a `toSelf` or a `toRoom` emission. -/
def deliveredToSender (es : List (Target × Event)) (e : Event) : Bool :=
  es.any (fun te => (te.1 == Target.toSelf || te.1 == Target.toRoom) && te.2 == e)

/-- Some `voting:all-completed` event occurs among the emissions. -/
def emitsAllCompleted (es : List (Target × Event)) : Bool :=
  es.any (fun te => match te.2 with | Event.allCompleted _ => true | _ => false)

/-- JavaScript `String.prototype.trim` on the character list: drop
whitespace from both ends. -/
def trimChars (cs : List Char) : List Char :=
  ((cs.dropWhile Char.isWhitespace).reverse.dropWhile Char.isWhitespace).reverse

/-- `s.trim()` as the join handler calls it. -/
def jsTrim (s : String) : String := ⟨trimChars s.data⟩

/-- `groupCode.trim().toUpperCase().slice(0, 10)` from the join
handlers (identical in both variants). -/
def sanitizeCode (s : String) : String := ⟨((trimChars s.data).map Char.toUpper).take 10⟩

/-- `participantName.trim().slice(0, 50)` from the join handlers. -/
def sanitizeName (s : String) : String := ⟨(trimChars s.data).take 50⟩

/-- Membership in the character class `[A-Z0-9]`. -/
def isCodeChar (c : Char) : Bool := ('A' ≤ c && c ≤ 'Z') || ('0' ≤ c && c ≤ '9')

/-- The test `/^[A-Z0-9]{5}$/.test(code)`. -/
def validCodeFormat (s : String) : Bool := s.data.length == 5 && s.data.all isCodeChar

/-- The validation and sanitization prefix of the `group:join` handlers
(lines 92-118 of the `part001` variant, 90-116 of `part000` — the two
are identical).  `none` models a missing or non-string field of the
payload; the guards `!groupCode` / `!participantName` also reject the
(falsy) empty string. -/
def joinValidate (groupCode participantName : Option String) :
    Except String (String × String) :=
  match groupCode with
  | none => Except.error "Неверный код группы"
  | some gc =>
    if gc == "" then Except.error "Неверный код группы"
    else
      match participantName with
      | none => Except.error "Неверное имя участника"
      | some pn =>
        if pn == "" then Except.error "Неверное имя участника"
        else
          let sc := sanitizeCode gc
          let sn := sanitizeName pn
          if sc.length == 0 || sn.length == 0 then
            Except.error "Код группы и имя участника не могут быть пустыми"
          else if !(validCodeFormat sc) then Except.error "Неверный формат кода группы"
          else Except.ok (sc, sn)

/-- Outcome of one run of a `group:join` handler: resulting store,
resulting live-presence registry for the room, emissions, and the
ordered list of store operations the run performed (empty when the
request was rejected before touching the store). -/
structure JoinOut where
  store : Store
  registry : List String
  emissions : List (Target × Event)
  storeOps : List String
deriving DecidableEq, Repr, BEq

/-- The `group:join` handler of the `part000` variant (lines 88-210).
The live-presence registry of `lib/socket` (`addParticipantToGroup`,
`getGroupParticipants`, `removeParticipantFromGroup`) is not under
`src` and is modelled from the spec (section 4.1) as the list of
participant names with a live connection in this room; socket-id
bookkeeping carries no decision and is not modelled.  After a found
group the handler appends the name to the persisted roster when absent,
computes `wasAlreadyConnected` from the registry, registers the name,
drops registry names absent from the persisted roster, emits
`participant-joined` to the others only when `wasAlreadyConnected` is
false, always emits it to the joining socket, and pushes the film
catalog to the joining socket. -/
def part000JoinHandler (store : Store) (registry : List String)
    (groupCode participantName : Option String) : JoinOut :=
  match joinValidate groupCode participantName with
  | Except.error m => ⟨store, registry, [(Target.toSelf, Event.errorNote m)], []⟩
  | Except.ok (sc, sn) =>
    match getGroupByCode store sc with
    | none => ⟨store, registry, [(Target.toSelf, Event.errorNote "Группа не найдена")], ["getGroupByCode"]⟩
    | some g =>
      let dbParticipants := g.participants
      let isInDatabase := dbParticipants.contains sn
      let dbParticipants2 := if isInDatabase then dbParticipants else dbParticipants ++ [sn]
      let store1 := if isInDatabase then store else updateGroupParticipants store g.id dbParticipants2
      let ops1 := if isInDatabase then ["getGroupByCode"] else ["getGroupByCode", "updateGroup"]
      let wasAlreadyConnected := registry.contains sn
      let registry1 := if wasAlreadyConnected then registry else registry ++ [sn]
      let registry2 := registry1.filter (fun p => dbParticipants2.contains p)
      let films := getFilmsByGroup store1 g.id
      ⟨store1, registry2,
        (if wasAlreadyConnected then []
         else [(Target.toOthers, Event.participantJoined sn dbParticipants2)]) ++
          [(Target.toSelf, Event.participantJoined sn dbParticipants2),
           (Target.toSelf, Event.filmsSnapshot films)],
        ops1 ++ ["getFilmsByGroup"]⟩

/-- The `group:join` handler of the `part001` variant (lines 90-204).
Identical to `part000JoinHandler` except for the broadcast block: it
emits `group:participant-joined` once, to the whole room
(`io.to(code).emit`), joining socket included, with no
`wasAlreadyConnected` gate. -/
def part001JoinHandler (store : Store) (registry : List String)
    (groupCode participantName : Option String) : JoinOut :=
  match joinValidate groupCode participantName with
  | Except.error m => ⟨store, registry, [(Target.toSelf, Event.errorNote m)], []⟩
  | Except.ok (sc, sn) =>
    match getGroupByCode store sc with
    | none => ⟨store, registry, [(Target.toSelf, Event.errorNote "Группа не найдена")], ["getGroupByCode"]⟩
    | some g =>
      let dbParticipants := g.participants
      let isInDatabase := dbParticipants.contains sn
      let dbParticipants2 := if isInDatabase then dbParticipants else dbParticipants ++ [sn]
      let store1 := if isInDatabase then store else updateGroupParticipants store g.id dbParticipants2
      let ops1 := if isInDatabase then ["getGroupByCode"] else ["getGroupByCode", "updateGroup"]
      let wasAlreadyConnected := registry.contains sn
      let registry1 := if wasAlreadyConnected then registry else registry ++ [sn]
      let registry2 := registry1.filter (fun p => dbParticipants2.contains p)
      let films := getFilmsByGroup store1 g.id
      ⟨store1, registry2,
        [(Target.toRoom, Event.participantJoined sn dbParticipants2),
         (Target.toSelf, Event.filmsSnapshot films)],
        ops1 ++ ["getFilmsByGroup"]⟩

/-- The effective creator, as both the `voting:start` and `group:reset`
handlers of the `part001` variant recompute it from the freshly read
session: the persisted `createdBy` when truthy and still in the roster,
else the first roster entry, else none. -/
def effectiveCreator (g : Group) : Option String :=
  if g.createdBy != "" && g.participants.contains g.createdBy then some g.createdBy
  else g.participants.head?

/-- The `voting:start` handler of the `part001` variant (lines
368-399): reads the session, resolves the effective creator, and only
when the requesting socket's stored name equals it broadcasts
`voting:started` to the room; otherwise the requester alone gets an
error notification.  `requester` is `socket.data.participantName`
(`none` when the socket never completed a join). -/
def votingStartHandler (store : Store) (requester : Option String) (groupCode : String) :
    List (Target × Event) :=
  match getGroupByCode store groupCode with
  | none => [(Target.toSelf, Event.errorNote "Группа не найдена")]
  | some g =>
    match effectiveCreator g with
    | none => [(Target.toSelf, Event.errorNote "Только создатель группы может начать голосование")]
    | some leader =>
      if requester == some leader then [(Target.toRoom, Event.votingStarted)]
      else [(Target.toSelf, Event.errorNote "Только создатель группы может начать голосование")]

/-- The `group:reset` handler of the `part001` variant (lines 402-433):
silently returns when the payload's `groupCode` or the socket's stored
name is falsy; otherwise reads the session, resolves the effective
creator, and for the leader deletes the session's films then votes and
broadcasts `group:reset`; any other requester gets an error
notification on their own connection. -/
def groupResetHandler (store : Store) (requester : Option String) (groupCode : Option String) :
    Store × List (Target × Event) :=
  match groupCode, requester with
  | some gc, some r =>
    if gc == "" || r == "" then (store, [])
    else
      match getGroupByCode store gc with
      | none => (store, [(Target.toSelf, Event.errorNote "Группа не найдена")])
      | some g =>
        match effectiveCreator g with
        | none => (store, [(Target.toSelf, Event.errorNote "Только создатель может начать новое голосование")])
        | some leader =>
          if r == leader then
            (deleteVotesByGroup (deleteFilmsByGroup store g.id) g.id,
              [(Target.toRoom, Event.groupReset "Голосование сброшено создателем")])
          else (store, [(Target.toSelf, Event.errorNote "Только создатель может начать новое голосование")])
  | _, _ => (store, [])

/-- The `voting:vote` handler (identical in both variants, lines
436-447 of `part001`): it broadcasts `voting:vote-cast` to the room
with the sender excluded (`socket.to(...).emit`) and performs no store
operation whatsoever — the returned store is the incoming one. -/
def votingVoteHandler (store : Store) (requester : Option String) (groupCode : String)
    (filmId : Nat) (verdict : Verdict) : Store × List (Target × Event) :=
  (store, [(Target.toOthers, Event.voteCast requester filmId verdict)])

/-- The set of distinct film ids a participant has voted on — the
per-participant `Set<number>` the `voting:completed` handler builds
(list deduplication stands in for the set; only emptiness and size are
consumed). -/
def distinctFilmIds (votes : List Vote) (p : String) : List Nat :=
  ((votes.filter (fun v => v.participantId == p)).map (fun v => v.filmId)).dedup

/-- The completed-participant filter of the `part001` `voting:completed`
handler: roster names whose per-participant vote set exists and has
exactly `films.length` members. -/
def completedParticipants (votes : List Vote) (films : List Film) (roster : List String) :
    List String :=
  roster.filter (fun p =>
    !(distinctFilmIds votes p).isEmpty && (distinctFilmIds votes p).length == films.length)

/-- The `voting:completed` handler of the `part001` variant (lines
450-518): reads the session, bails out silently when it is missing or
its roster or film catalog is empty, otherwise emits a progress event
to the room and, exactly when every roster name is completed, emits
`voting:all-completed` with the computed results to the whole room. -/
def votingCompletedHandler (store : Store) (groupCode participantName : String) :
    List (Target × Event) :=
  match getGroupByCode store groupCode with
  | none => []
  | some g =>
    let allParticipants := g.participants
    if allParticipants.isEmpty then []
    else
      let votes := getVotesByGroup store g.id
      let films := getFilmsByGroup store g.id
      if films.isEmpty then []
      else
        let completed := completedParticipants votes films allParticipants
        [(Target.toRoom, Event.votingProgress participantName completed.length allParticipants.length)] ++
          (if completed.length == allParticipants.length && allParticipants.length > 0 then
            [(Target.toRoom, Event.allCompleted (calculateResults votes films allParticipants))]
          else [])

/-- The `disconnect` handler of the `part001` variant (lines 521-588):
when the socket had joined (stored code and name truthy) and the
session exists, it first transfers `createdBy` to the first remaining
roster entry when the departing name equals the persisted creator and
the remainder is non-empty (broadcasting `group:creator-changed`),
then removes the name from the persisted roster, drops the name from
the live-presence registry, re-reads the roster and emits
`group:participant-left` to the remaining members. -/
def disconnectHandler (store : Store) (registry : List String)
    (groupCode participantName : Option String) : Store × List String × List (Target × Event) :=
  match groupCode, participantName with
  | some gc, some pn =>
    if gc == "" || pn == "" then (store, registry, [])
    else
      match getGroupByCode store gc with
      | none => (store, registry.filter (fun p => p != pn), [])
      | some g =>
        let step1 :=
          if g.createdBy == pn then
            match g.participants.filter (fun p => p != pn) with
            | [] => (store, ([] : List (Target × Event)))
            | newCreator :: _ =>
              (updateGroupCreatedBy store g.id newCreator,
                [(Target.toRoom, Event.creatorChanged newCreator
                  ("Права создателя переданы участнику " ++ newCreator))])
          else (store, [])
        let updatedParticipants := g.participants.filter (fun p => p != pn)
        let store2 :=
          if updatedParticipants.length != g.participants.length then
            updateGroupParticipants step1.1 g.id updatedParticipants
          else step1.1
        let finalRoster := match getGroupByCode store2 gc with | some g2 => g2.participants | none => []
        (store2, registry.filter (fun p => p != pn),
          step1.2 ++ [(Target.toOthers, Event.participantLeft pn finalRoster)])
  | _, _ => (store, registry, [])

/-- Stated from the claim's words, for comparison with the code's
completion check: every name in the persisted roster has exactly one
vote for every film currently in the catalog. -/
def specOneVotePerCatalogFilm (votes : List Vote) (films : List Film) (roster : List String) :
    Bool :=
  roster.all (fun p => films.all (fun f =>
    (votes.filter (fun v => v.participantId == p && v.filmId == f.kinopoiskId)).length == 1))

/-- Stated from the claim's words, for comparison with the handlers'
validation: the join payload's code or name is missing or not a string,
is empty after trimming, or its normalized code fails the 5-character
uppercase alphanumeric pattern. -/
def specInvalidJoinInput (groupCode participantName : Option String) : Prop :=
  groupCode = none ∨ participantName = none ∨
    jsTrim (groupCode.getD "") = "" ∨ jsTrim (participantName.getD "") = "" ∨
    validCodeFormat (sanitizeCode (groupCode.getD "")) = false

/-- Vote rows pairwise differ on the `(session, film, participant)`
composite key — the spec's at-most-one-vote invariant. -/
def uniqueVoteKeys (l : List VoteRow) : Prop :=
  l.Pairwise (fun a b => sameVoteKey a b = false)

/-- The persisted roster right after a join of `sn` into `g`: unchanged
when `sn` was already rostered, else `sn` appended. -/
def joinedRoster (g : Group) (sn : String) : List String :=
  if g.participants.contains sn then g.participants else g.participants ++ [sn]

/-- The store right after the roster step of a join of `sn` into `g`. -/
def joinedStore (store : Store) (g : Group) (sn : String) : Store :=
  if g.participants.contains sn then store
  else updateGroupParticipants store g.id (joinedRoster g sn)

/-- Some `participant-joined` event reaches connections other than the
joining one: it is emitted with target `toOthers` or `toRoom`. -/
def othersGetParticipantJoined (es : List (Target × Event)) : Prop :=
  ∃ t p ps, (t, Event.participantJoined p ps) ∈ es ∧
    (t = Target.toOthers ∨ t = Target.toRoom)

/-- The joining connection receives a `participant-joined` event
carrying the roster `roster`: emitted with target `toSelf` or
`toRoom`. -/
def senderGetsParticipantJoined (es : List (Target × Event)) (roster : List String) : Prop :=
  ∃ t p, (t, Event.participantJoined p roster) ∈ es ∧
    (t = Target.toSelf ∨ t = Target.toRoom)

/-- Concrete store for the C1 counterexample: session `ABCDE` with
roster `[A]`, one catalog film with kinopoisk id 1, and a single stored
vote by `A` on the stale film id 2 (a film not in the catalog). -/
def c1store : Store :=
  { groups := [⟨"g1", "ABCDE", ["A"], "A"⟩],
    films := [⟨"g1", ⟨"f1", 1, "T1", "A"⟩⟩],
    votes := [⟨"g1", 2, Verdict.like, "A"⟩] }

/-- Concrete store for the C4 counterexample: session `ABCDE` with
roster `[A, B]`. -/
def c4store : Store :=
  { groups := [⟨"g1", "ABCDE", ["A", "B"], "A"⟩], films := [], votes := [] }

/-- Concrete store for the C5 counterexample: session `ABCDE` with
roster `[A]` and no stored votes. -/
def c5store : Store :=
  { groups := [⟨"g1", "ABCDE", ["A"], "A"⟩], films := [], votes := [] }

/-- Concrete store for the C6 failover chain: session `ABCDE` with
roster `[A, B, C]` created by `A`. -/
def c6store : Store :=
  { groups := [⟨"g1", "ABCDE", ["A", "B", "C"], "A"⟩], films := [], votes := [] }

/-- Concrete store for the C7 counterexample: session `ABCDE` with
roster `[A]` created by `A`. -/
def c7store : Store :=
  { groups := [⟨"g1", "ABCDE", ["A"], "A"⟩], films := [], votes := [] }

/-- Concrete store for the C8 witness: two sessions, each with a film
and a vote, so the frame condition is visible. -/
def c8store : Store :=
  { groups := [⟨"g1", "ABCDE", ["A"], "A"⟩, ⟨"g2", "ZZZZZ", ["B"], "B"⟩],
    films := [⟨"g1", ⟨"f1", 1, "T1", "A"⟩⟩, ⟨"g2", ⟨"f2", 2, "T2", "B"⟩⟩],
    votes := [⟨"g1", 1, Verdict.like, "A"⟩, ⟨"g2", 2, Verdict.dislike, "B"⟩] }

theorem resultsStep_eq (votes : List Vote) (ps : List String)
    (acc : Option (Film × List String) × Option (Film × Nat × List String)) (f : Film) :
    resultsStep votes ps acc f = (smStep votes ps acc.1 f, bmStep votes acc.2 f) := by
  rcases acc with ⟨s, b⟩
  unfold resultsStep smStep bmStep superQualifies
  cases h : hasVotesFor votes f.kinopoiskId
  · simp [h]
  · cases b with
    | none => simp [h]
    | some t => rcases t with ⟨bf, bl, bvs⟩; simp [h]

theorem foldl_resultsStep (votes : List Vote) (ps : List String) (films : List Film)
    (s : Option (Film × List String)) (b : Option (Film × Nat × List String)) :
    films.foldl (resultsStep votes ps) (s, b) =
      (films.foldl (smStep votes ps) s, films.foldl (bmStep votes) b) := by
  induction films generalizing s b with
  | nil => rfl
  | cons f fs ih => simp only [List.foldl_cons, resultsStep_eq]; exact ih _ _

theorem foldl_smStep_eq (votes : List Vote) (ps : List String) (films : List Film)
    (s : Option (Film × List String)) :
    films.foldl (smStep votes ps) s =
      match films.reverse.find? (superQualifies votes ps) with
      | some f => some (f, votersFor votes f.kinopoiskId)
      | none => s := by
  induction films generalizing s with
  | nil => rfl
  | cons f fs ih =>
    rw [List.foldl_cons, ih, List.reverse_cons, List.find?_append]
    cases h : fs.reverse.find? (superQualifies votes ps) with
    | some g => simp [Option.or]
    | none =>
      cases hq : superQualifies votes ps f <;> simp [Option.or, smStep, hq, List.find?]

theorem foldl_bmStep_isSome (votes : List Vote) (films : List Film)
    (b : Film × Nat × List String) : (films.foldl (bmStep votes) (some b)).isSome := by
  induction films generalizing b with
  | nil => simp
  | cons f fs ih =>
    rw [List.foldl_cons]
    rcases b with ⟨bf, bl, bvs⟩
    cases h : hasVotesFor votes f.kinopoiskId
    · simpa [bmStep, h] using ih ⟨bf, bl, bvs⟩
    · by_cases hl : countLikes votes f.kinopoiskId > bl
      · simpa [bmStep, h, hl] using ih _
      · simpa [bmStep, h, hl] using ih _

theorem foldl_bmStep_none_iff (votes : List Vote) (films : List Film) :
    films.foldl (bmStep votes) none = none ↔
      ∀ f ∈ films, hasVotesFor votes f.kinopoiskId = false := by
  induction films with
  | nil => simp
  | cons f fs ih =>
    rw [List.foldl_cons]
    cases h : hasVotesFor votes f.kinopoiskId
    · have hstep : bmStep votes none f = none := by simp [bmStep, h]
      rw [hstep]
      simp only [List.mem_cons]
      constructor
      · intro hc
        intro g hg
        rcases hg with hg | hg
        · subst hg; exact h
        · exact (ih.mp hc) g hg
      · intro hall
        exact ih.mpr (fun g hg => hall g (Or.inr hg))
    · have hstep : bmStep votes none f =
          some (f, countLikes votes f.kinopoiskId, votersFor votes f.kinopoiskId) := by
        simp [bmStep, h]
      rw [hstep]
      constructor
      · intro hc
        have := foldl_bmStep_isSome votes fs
          (f, countLikes votes f.kinopoiskId, votersFor votes f.kinopoiskId)
        rw [hc] at this
        simp at this
      · intro hall
        have := hall f (by simp)
        rw [h] at this
        simp at this

theorem countLikes_of_not_hasVotes (votes : List Vote) (fid : Nat)
    (h : hasVotesFor votes fid = false) : countLikes votes fid = 0 := by
  unfold hasVotesFor at h
  unfold countLikes
  rw [List.length_eq_zero, List.filter_eq_nil_iff]
  intro v hv
  have := List.any_eq_false.mp h v hv
  simp only [Bool.and_eq_true, not_and] at this ⊢
  intro hfid
  exact absurd hfid this

theorem foldl_bmStep_spec (votes : List Vote) (films : List Film) (f : Film) (lk : Nat)
    (vs : List String) (hres : films.foldl (bmStep votes) none = some (f, lk, vs)) :
    f ∈ films ∧ hasVotesFor votes f.kinopoiskId = true ∧
    lk = countLikes votes f.kinopoiskId ∧ vs = votersFor votes f.kinopoiskId ∧
    (∀ g ∈ films, hasVotesFor votes g.kinopoiskId = true →
      countLikes votes g.kinopoiskId ≤ lk) ∧
    ∃ pre post, films = pre ++ f :: post ∧
      ∀ g ∈ pre, hasVotesFor votes g.kinopoiskId = true →
        countLikes votes g.kinopoiskId < lk := by
  induction films using List.reverseRecOn generalizing f lk vs with
  | nil => simp at hres
  | append_singleton l x ih =>
    rw [List.foldl_append, List.foldl_cons, List.foldl_nil] at hres
    cases hprev : l.foldl (bmStep votes) none with
    | none =>
      rw [hprev] at hres
      have hnone := (foldl_bmStep_none_iff votes l).mp hprev
      cases hx : hasVotesFor votes x.kinopoiskId
      · simp [bmStep, hx] at hres
      · rw [show bmStep votes none x =
            some (x, countLikes votes x.kinopoiskId, votersFor votes x.kinopoiskId) by
            simp [bmStep, hx]] at hres
        obtain ⟨hf, hlk, hvs⟩ := by simpa using hres.symm
        subst hf
        refine ⟨by simp, hx, hlk, hvs, ?_, l, [], by simp, ?_⟩
        · intro g hg _
          rcases List.mem_append.mp hg with hg | hg
          · have := countLikes_of_not_hasVotes votes g.kinopoiskId (hnone g hg)
            omega
          · simp at hg; subst hg; omega
        · intro g hg hgv
          exact absurd hgv (by simp [hnone g hg])
    | some prev =>
      rcases prev with ⟨pf, plk, pvs⟩
      rw [hprev] at hres
      obtain ⟨hpf_mem, hpf_votes, hplk, hpvs, hmax, pre, post, hsplit, hpre⟩ :=
        ih pf plk pvs hprev
      cases hx : hasVotesFor votes x.kinopoiskId
      · rw [show bmStep votes (some (pf, plk, pvs)) x = some (pf, plk, pvs) by
          simp [bmStep, hx]] at hres
        obtain ⟨hf, hlk, hvs⟩ := by simpa using hres
        subst hf
        refine ⟨List.mem_append.mpr (Or.inl hpf_mem), hpf_votes, hlk ▸ hplk, hvs ▸ hpvs,
          ?_, pre, post ++ [x], by rw [hsplit]; simp, ?_⟩
        · intro g hg hgv
          rcases List.mem_append.mp hg with hg | hg
          · exact hlk ▸ hmax g hg hgv
          · simp at hg; subst hg; exact absurd hgv (by simp [hx])
        · intro g hg hgv
          exact hlk ▸ hpre g hg hgv
      · by_cases hgt : countLikes votes x.kinopoiskId > plk
        · rw [show bmStep votes (some (pf, plk, pvs)) x =
              some (x, countLikes votes x.kinopoiskId, votersFor votes x.kinopoiskId) by
              simp [bmStep, hx, hgt]] at hres
          obtain ⟨hf, hlk, hvs⟩ := by simpa using hres.symm
          subst hf
          refine ⟨by simp, hx, hlk, hvs, ?_, l, [], by simp, ?_⟩
          · intro g hg hgv
            rcases List.mem_append.mp hg with hg | hg
            · have := hmax g hg hgv; omega
            · simp at hg; subst hg; omega
          · intro g hg hgv
            have := hmax g hg hgv; omega
        · rw [show bmStep votes (some (pf, plk, pvs)) x = some (pf, plk, pvs) by
            simp [bmStep, hx, hgt]] at hres
          obtain ⟨hf, hlk, hvs⟩ := by simpa using hres
          subst hf
          refine ⟨List.mem_append.mpr (Or.inl hpf_mem), hpf_votes, hlk ▸ hplk, hvs ▸ hpvs,
            ?_, pre, post ++ [x], by rw [hsplit]; simp, ?_⟩
          · intro g hg hgv
            rcases List.mem_append.mp hg with hg | hg
            · exact hlk ▸ hmax g hg hgv
            · simp at hg; subst hg; omega
          · intro g hg hgv
            exact hlk ▸ hpre g hg hgv

/-- C2 (counterexample): with one participant `P` liking both catalog
films, both films pass the unanimity test, and `calculateResults`
reports the second (last) one as `superMatch` — not the first film in
catalog order, as the claim states. -/
theorem C2_counterexample :
    (calculateResults
      [⟨1, Verdict.like, "P"⟩, ⟨2, Verdict.like, "P"⟩]
      [⟨"f1", 1, "T1", "P"⟩, ⟨"f2", 2, "T2", "P"⟩]
      ["P"]).superMatch = some (⟨"f2", 2, "T2", "P"⟩, ["P"]) ∧
    superQualifies [⟨1, Verdict.like, "P"⟩, ⟨2, Verdict.like, "P"⟩] ["P"]
      ⟨"f1", 1, "T1", "P"⟩ = true ∧
    (⟨"f1", 1, "T1", "P"⟩ : Film) ≠ ⟨"f2", 2, "T2", "P"⟩ := by decide

/-- C2 (amended): `superMatch` is the LAST film in catalog order with a
vote entry whose like count equals the participant count and whose
dislike count is zero (`find?` over the reversed catalog), paired with
that film's voter list; it is `none` exactly when no film qualifies,
and being a single optional value at most one film is ever reported. -/
theorem C2_superMatch_is_last_qualifying (votes : List Vote) (films : List Film)
    (ps : List String) :
    (calculateResults votes films ps).superMatch =
      (films.reverse.find? (superQualifies votes ps)).map
        (fun f => (f, votersFor votes f.kinopoiskId)) := by
  unfold calculateResults
  rw [foldl_resultsStep, foldl_smStep_eq]
  cases films.reverse.find? (superQualifies votes ps) <;> simp

/-- C3 (confirmed): when `bestMatch` reports `(f, lk, vs)`, `f` is a
catalog film with a vote entry, `lk` is its like count, no catalog film
(voted or not — an unvoted film has like count 0) has a greater like
count, and `f` is the first voted film attaining that count: every
voted film strictly before it in catalog order has strictly fewer
likes, so later films with an equal like count never replace it. -/
theorem C3_bestMatch_first_of_max (votes : List Vote) (films : List Film) (ps : List String)
    (f : Film) (lk : Nat) (vs : List String)
    (hres : (calculateResults votes films ps).bestMatch = some (f, lk, vs)) :
    f ∈ films ∧ hasVotesFor votes f.kinopoiskId = true ∧
    lk = countLikes votes f.kinopoiskId ∧
    (∀ g ∈ films, countLikes votes g.kinopoiskId ≤ lk) ∧
    ∃ pre post, films = pre ++ f :: post ∧
      ∀ g ∈ pre, hasVotesFor votes g.kinopoiskId = true →
        countLikes votes g.kinopoiskId < lk := by
  have hbm : films.foldl (bmStep votes) none = some (f, lk, vs) := by
    simpa [calculateResults, foldl_resultsStep] using hres
  obtain ⟨hmem, hv, hlk, hvs, hmax, pre, post, hsplit, hpre⟩ :=
    foldl_bmStep_spec votes films f lk vs hbm
  refine ⟨hmem, hv, hlk, ?_, pre, post, hsplit, hpre⟩
  intro g hg
  cases hgv : hasVotesFor votes g.kinopoiskId
  · rw [countLikes_of_not_hasVotes votes _ hgv]; omega
  · exact hmax g hg hgv

/-- C3 witness: the theorem applied to the two-film tie
`[F1 (2 likes), F2 (2 likes)]` — `bestMatch` is `F1`, the first film of
the catalog. -/
theorem C3_bestMatch_first_of_max_witness :
    (⟨"f1", 1, "T1", "A"⟩ : Film) ∈
      ([⟨"f1", 1, "T1", "A"⟩, ⟨"f2", 2, "T2", "A"⟩] : List Film) ∧
    hasVotesFor
      [⟨1, Verdict.like, "A"⟩, ⟨1, Verdict.like, "B"⟩,
       ⟨2, Verdict.like, "A"⟩, ⟨2, Verdict.like, "B"⟩] (1 : Nat) = true := by
  have h := C3_bestMatch_first_of_max
    [⟨1, Verdict.like, "A"⟩, ⟨1, Verdict.like, "B"⟩,
     ⟨2, Verdict.like, "A"⟩, ⟨2, Verdict.like, "B"⟩]
    [⟨"f1", 1, "T1", "A"⟩, ⟨"f2", 2, "T2", "A"⟩] ["A", "B"]
    ⟨"f1", 1, "T1", "A"⟩ 2 ["A", "B"] (by decide)
  exact ⟨h.1, h.2.1⟩

/-- C10 (confirmed): a film no vote references is skipped by the
results loop and can never be `superMatch` or `bestMatch`; with an
empty vote list the result is `superMatch = none`, `bestMatch = none`
and `votedParticipants = 0` for every catalog and roster. -/
theorem C10_unvoted_films_skipped :
    (∀ films ps, calculateResults [] films ps =
      { superMatch := none, bestMatch := none,
        totalParticipants := ps.length, votedParticipants := 0 }) ∧
    (∀ votes films ps f vs, (calculateResults votes films ps).superMatch = some (f, vs) →
      hasVotesFor votes f.kinopoiskId = true) ∧
    (∀ votes films ps f lk vs, (calculateResults votes films ps).bestMatch = some (f, lk, vs) →
      hasVotesFor votes f.kinopoiskId = true) := by
  refine ⟨?_, ?_, ?_⟩
  · intro films ps
    unfold calculateResults
    rw [foldl_resultsStep, foldl_smStep_eq]
    have h1 : films.reverse.find? (superQualifies [] ps) = none := by
      rw [List.find?_eq_none]
      intro f _
      simp [superQualifies, hasVotesFor]
    have h2 : films.foldl (bmStep []) none = none :=
      (foldl_bmStep_none_iff [] films).mpr (by intro f _; simp [hasVotesFor])
    rw [h1, h2]
    rfl
  · intro votes films ps f vs hsm
    have hfold : films.foldl (smStep votes ps) none = some (f, vs) := by
      simpa [calculateResults, foldl_resultsStep] using hsm
    rw [foldl_smStep_eq] at hfold
    cases hfind : films.reverse.find? (superQualifies votes ps) with
    | none => rw [hfind] at hfold; simp at hfold
    | some g =>
      rw [hfind] at hfold
      have hq := List.find?_some hfind
      simp only [Option.some.injEq, Prod.mk.injEq] at hfold
      obtain ⟨hg, -⟩ := hfold
      subst hg
      simp only [superQualifies, Bool.and_eq_true] at hq
      exact hq.1.1
  · intro votes films ps f lk vs hbm
    have hfold : films.foldl (bmStep votes) none = some (f, lk, vs) := by
      simpa [calculateResults, foldl_resultsStep] using hbm
    exact (foldl_bmStep_spec votes films f lk vs hfold).2.1

/-- C10 witness: the first part applied to a one-film catalog, and the
skip parts applied where `superMatch`/`bestMatch` are reported. -/
theorem C10_unvoted_films_skipped_witness :
    calculateResults [] [⟨"f1", 1, "T1", "A"⟩] ["A"] =
      { superMatch := none, bestMatch := none, totalParticipants := 1,
        votedParticipants := 0 } ∧
    hasVotesFor [⟨1, Verdict.like, "P"⟩] (1 : Nat) = true := by
  refine ⟨C10_unvoted_films_skipped.1 _ _, ?_⟩
  exact C10_unvoted_films_skipped.2.1 [⟨1, Verdict.like, "P"⟩] [⟨"f1", 1, "T1", "P"⟩]
    ["P"] ⟨"f1", 1, "T1", "P"⟩ ["P"] (by decide)

/-- C1 (counterexample): with roster `[A]`, catalog `[film 1]` and a
single stored vote by `A` on the stale film id 2, the `voting:completed`
handler broadcasts `voting:all-completed` (A's one distinct voted film
id matches the catalog size), although `A` does not have exactly one
vote for every film currently in the catalog — so the claimed
"if and only if" fails on the code. -/
theorem C1_counterexample :
    emitsAllCompleted (votingCompletedHandler c1store "ABCDE" "A") = true ∧
    specOneVotePerCatalogFilm (getVotesByGroup c1store "g1") (getFilmsByGroup c1store "g1")
      ["A"] = false := by decide

/-- C1 (amended): the `part001` `voting:completed` handler broadcasts
`voting:all-completed` exactly when the session exists, its persisted
roster and its film catalog are both non-empty, and every roster name
has voted on a number of DISTINCT film ids equal to the catalog size —
the code counts distinct voted film ids and never matches them against
the catalog. -/
theorem C1_completion_characterization (store : Store) (code name : String) :
    emitsAllCompleted (votingCompletedHandler store code name) = true ↔
      ∃ g, getGroupByCode store code = some g ∧ g.participants ≠ [] ∧
        getFilmsByGroup store g.id ≠ [] ∧
        ∀ p ∈ g.participants,
          (distinctFilmIds (getVotesByGroup store g.id) p).length =
            (getFilmsByGroup store g.id).length := by
  unfold votingCompletedHandler
  cases hg : getGroupByCode store code with
  | none => simp [emitsAllCompleted]
  | some g =>
    simp only [Option.some.injEq, exists_eq_left']
    by_cases hps : g.participants.isEmpty
    · simp [hps, emitsAllCompleted, List.isEmpty_iff.mp hps]
    · by_cases hfs : (getFilmsByGroup store g.id).isEmpty
      · simp [hps, hfs, emitsAllCompleted, List.isEmpty_iff.mp hfs]
      · have hros : g.participants ≠ [] := by simpa [List.isEmpty_iff] using hps
        have hfilms : getFilmsByGroup store g.id ≠ [] := by simpa [List.isEmpty_iff] using hfs
        have hflen : (getFilmsByGroup store g.id).length ≠ 0 := by
          simpa [List.length_eq_zero] using hfilms
        have hrlen : 0 < g.participants.length := by
          have : g.participants.length ≠ 0 := by simpa [List.length_eq_zero] using hros
          omega
        simp only [hps, hfs, Bool.false_eq_true, if_false]
        by_cases hcond : ((completedParticipants (getVotesByGroup store g.id)
            (getFilmsByGroup store g.id) g.participants).length == g.participants.length
            && decide (g.participants.length > 0)) = true
        · rw [if_pos hcond]
          have hlen : (completedParticipants (getVotesByGroup store g.id)
              (getFilmsByGroup store g.id) g.participants).length = g.participants.length := by
            have := (Bool.and_eq_true _ _).mp hcond
            simpa using this.1
          have hall := List.filter_length_eq_length.mp hlen
          simp only [emitsAllCompleted, List.any_append, List.any_cons, List.any_nil]
          simp only [Bool.or_false, Bool.false_or]
          constructor
          · intro _
            refine ⟨hros, hfilms, ?_⟩
            intro p hp
            have hpred := hall p hp
            simp only [Bool.and_eq_true, beq_iff_eq] at hpred
            exact hpred.2
          · intro _
            trivial
        · rw [if_neg hcond]
          simp only [emitsAllCompleted, List.any_cons, List.any_nil, Bool.or_false]
          constructor
          · intro h
            simp at h
          · rintro ⟨-, -, hall⟩
            exfalso
            apply hcond
            have hlen : (completedParticipants (getVotesByGroup store g.id)
                (getFilmsByGroup store g.id) g.participants).length = g.participants.length := by
              apply List.filter_length_eq_length.mpr
              intro p hp
              have hp2 := hall p hp
              simp only [Bool.and_eq_true, beq_iff_eq, Bool.not_eq_true']
              constructor
              · cases hie : (distinctFilmIds (getVotesByGroup store g.id) p).isEmpty with
                | false => rfl
                | true =>
                  rw [List.isEmpty_iff] at hie
                  rw [hie] at hp2
                  simp at hp2
                  exact absurd hp2.symm hflen
              · exact hp2
            simp [hlen, hrlen]

theorem sanitizeCode_empty_iff (s : String) : sanitizeCode s = "" ↔ jsTrim s = "" := by
  unfold sanitizeCode jsTrim
  constructor
  · intro h
    have hl : ((trimChars s.data).map Char.toUpper).take 10 = [] := congrArg String.data h
    rcases List.take_eq_nil_iff.mp hl with h10 | hmap
    · exact absurd h10 (by omega)
    · have hnil : trimChars s.data = [] := List.map_eq_nil_iff.mp hmap
      rw [hnil]
  · intro h
    have hnil : trimChars s.data = [] := congrArg String.data h
    rw [hnil]
    rfl

theorem sanitizeName_empty_iff (s : String) : sanitizeName s = "" ↔ jsTrim s = "" := by
  unfold sanitizeName jsTrim
  constructor
  · intro h
    have hl : (trimChars s.data).take 50 = [] := congrArg String.data h
    rcases List.take_eq_nil_iff.mp hl with h50 | hnil
    · exact absurd h50 (by omega)
    · rw [hnil]
  · intro h
    have hnil : trimChars s.data = [] := congrArg String.data h
    rw [hnil]
    rfl

theorem joinValidate_error_of_invalid (gc gn : Option String)
    (h : specInvalidJoinInput gc gn) :
    ∃ m, joinValidate gc gn = Except.error m := by
  unfold specInvalidJoinInput at h
  cases gc with
  | none => exact ⟨"Неверный код группы", rfl⟩
  | some s =>
    cases hs : s == "" with
    | true => exact ⟨"Неверный код группы", by simp [joinValidate, hs]⟩
    | false =>
      cases gn with
      | none => exact ⟨"Неверное имя участника", by simp [joinValidate, hs]⟩
      | some n =>
        cases hn : n == "" with
        | true => exact ⟨"Неверное имя участника", by simp [joinValidate, hs, hn]⟩
        | false =>
          cases hempty : (sanitizeCode s).length == 0 || (sanitizeName n).length == 0 with
          | true =>
            exact ⟨"Код группы и имя участника не могут быть пустыми",
              by simp only [joinValidate, hs, hn, hempty]; simp⟩
          | false =>
            have hsc : sanitizeCode s ≠ "" := by
              intro hx
              have hx0 : ((sanitizeCode s).length == 0) = true := by rw [hx]; rfl
              rw [hx0] at hempty
              simp at hempty
            have hsn : sanitizeName n ≠ "" := by
              intro hx
              have hx0 : ((sanitizeName n).length == 0) = true := by rw [hx]; rfl
              rw [hx0, Bool.or_true] at hempty
              simp at hempty
            have hfmt : validCodeFormat (sanitizeCode s) = false := by
              rcases h with h | h | h | h | h
              · exact absurd h (by simp)
              · exact absurd h (by simp)
              · exact absurd ((sanitizeCode_empty_iff s).mpr (by simpa using h)) hsc
              · exact absurd ((sanitizeName_empty_iff n).mpr (by simpa using h)) hsn
              · simpa using h
            exact ⟨"Неверный формат кода группы",
              by simp only [joinValidate, hs, hn, hempty, hfmt]; simp⟩

/-- C9 (confirmed): a `session:join` whose code or name is missing or
not a string, trims to empty, or normalizes to a code failing the
5-character uppercase alphanumeric pattern, is answered with an error
notification to the originating connection only, with no store
operation performed and the store and registry left unchanged — in both
shipped handler variants. -/
theorem C9_invalid_join_rejected_before_store (store : Store) (registry : List String)
    (gc gn : Option String) (h : specInvalidJoinInput gc gn) :
    ∃ m, part000JoinHandler store registry gc gn =
        ⟨store, registry, [(Target.toSelf, Event.errorNote m)], []⟩ ∧
      part001JoinHandler store registry gc gn =
        ⟨store, registry, [(Target.toSelf, Event.errorNote m)], []⟩ := by
  obtain ⟨m, hm⟩ := joinValidate_error_of_invalid gc gn h
  exact ⟨m, by rw [part000JoinHandler, hm], by rw [part001JoinHandler, hm]⟩

/-- C9 witness: the code `"abc"` normalizes to `"ABC"`, which fails the
pattern; the theorem applied to it on the empty store. -/
theorem C9_invalid_join_rejected_before_store_witness :
    specInvalidJoinInput (some "abc") (some "Bob") ∧
    ∃ m, part000JoinHandler ⟨[], [], []⟩ [] (some "abc") (some "Bob") =
        ⟨⟨[], [], []⟩, [], [(Target.toSelf, Event.errorNote m)], []⟩ ∧
      part001JoinHandler ⟨[], [], []⟩ [] (some "abc") (some "Bob") =
        ⟨⟨[], [], []⟩, [], [(Target.toSelf, Event.errorNote m)], []⟩ := by
  have hinv : specInvalidJoinInput (some "abc") (some "Bob") := by
    unfold specInvalidJoinInput
    refine Or.inr (Or.inr (Or.inr (Or.inr ?_)))
    decide
  exact ⟨hinv, C9_invalid_join_rejected_before_store ⟨[], [], []⟩ [] _ _ hinv⟩

/-- C4 (counterexample): participant `A` of session `ABCDE` already has
a live connection (`wasAlreadyPresent` is true — a reconnect), yet the
`part001` join handler still delivers `group:participant-joined` to the
other room members, because it emits to the whole room unconditionally. -/
theorem C4_counterexample :
    (["A", "B"] : List String).contains "A" = true ∧
    othersGetParticipantJoined
      (part001JoinHandler c4store ["A", "B"] (some "ABCDE") (some "A")).emissions := by
  refine ⟨rfl, Target.toRoom, "A", ["A", "B"], ?_, Or.inr rfl⟩
  have h : (part001JoinHandler c4store ["A", "B"] (some "ABCDE") (some "A")).emissions =
      [(Target.toRoom, Event.participantJoined "A" ["A", "B"]),
       (Target.toSelf, Event.filmsSnapshot [])] := rfl
  rw [h]
  exact List.mem_cons_self _ _

/-- C4 (amended): on a successful join of name `sn` into session `g`,
with `roster2` the persisted roster after the join: the `part000`
handler notifies the other room members iff `sn` had no live connection
yet, and always sends the joining connection a `participant-joined`
carrying `roster2`; the `part001` handler instead always emits
`participant-joined` to the entire room — other members are notified
even on a reconnect (and the joining connection receives the same
roster snapshot). -/
theorem part000Join_emissions (store : Store) (registry : List String)
    (gc gn : Option String) (sc sn : String) (g : Group)
    (hval : joinValidate gc gn = Except.ok (sc, sn))
    (hg : getGroupByCode store sc = some g) :
    (part000JoinHandler store registry gc gn).emissions =
      (if registry.contains sn then []
       else [(Target.toOthers, Event.participantJoined sn (joinedRoster g sn))]) ++
      [(Target.toSelf, Event.participantJoined sn (joinedRoster g sn)),
       (Target.toSelf, Event.filmsSnapshot (getFilmsByGroup (joinedStore store g sn) g.id))] := by
  unfold part000JoinHandler
  rw [hval]
  dsimp only
  rw [hg]
  dsimp only
  by_cases hb : sn ∈ g.participants <;>
    by_cases hw : sn ∈ registry <;>
      simp [joinedRoster, joinedStore, hb, hw]

theorem part001Join_emissions (store : Store) (registry : List String)
    (gc gn : Option String) (sc sn : String) (g : Group)
    (hval : joinValidate gc gn = Except.ok (sc, sn))
    (hg : getGroupByCode store sc = some g) :
    (part001JoinHandler store registry gc gn).emissions =
      [(Target.toRoom, Event.participantJoined sn (joinedRoster g sn)),
       (Target.toSelf, Event.filmsSnapshot (getFilmsByGroup (joinedStore store g sn) g.id))] := by
  unfold part001JoinHandler
  rw [hval]
  dsimp only
  rw [hg]
  dsimp only
  by_cases hb : sn ∈ g.participants <;>
    simp [joinedRoster, joinedStore, hb]

theorem C4_join_broadcast_gating (store : Store) (registry : List String)
    (gc gn : Option String) (sc sn : String) (g : Group)
    (hval : joinValidate gc gn = Except.ok (sc, sn))
    (hg : getGroupByCode store sc = some g) :
    (othersGetParticipantJoined (part000JoinHandler store registry gc gn).emissions ↔
      registry.contains sn = false) ∧
    senderGetsParticipantJoined (part000JoinHandler store registry gc gn).emissions
      (joinedRoster g sn) ∧
    othersGetParticipantJoined (part001JoinHandler store registry gc gn).emissions ∧
    senderGetsParticipantJoined (part001JoinHandler store registry gc gn).emissions
      (joinedRoster g sn) := by
  rw [othersGetParticipantJoined, senderGetsParticipantJoined,
    othersGetParticipantJoined, senderGetsParticipantJoined,
    part000Join_emissions store registry gc gn sc sn g hval hg,
    part001Join_emissions store registry gc gn sc sn g hval hg]
  refine ⟨?_, ?_, ?_, ?_⟩
  · constructor
    · rintro ⟨t, p, ps, hmem, ht⟩
      cases hw : registry.contains sn with
      | false => rfl
      | true =>
        rw [hw] at hmem
        simp at hmem
        obtain ⟨rfl, -⟩ := hmem
        rcases ht with ht | ht <;> simp at ht
    · intro hw
      rw [hw]
      exact ⟨Target.toOthers, sn, joinedRoster g sn, by simp, Or.inl rfl⟩
  · exact ⟨Target.toSelf, sn, by simp, Or.inl rfl⟩
  · exact ⟨Target.toRoom, sn, joinedRoster g sn, by simp, Or.inr rfl⟩
  · exact ⟨Target.toRoom, sn, by simp, Or.inr rfl⟩

/-- C4 witness: the theorem applied to a fresh participant `C` joining
session `ABCDE` with an empty presence registry. -/
theorem C4_join_broadcast_gating_witness :
    (othersGetParticipantJoined
        (part000JoinHandler c4store [] (some "ABCDE") (some "C")).emissions ↔
      ([] : List String).contains "C" = false) ∧
    senderGetsParticipantJoined
      (part000JoinHandler c4store [] (some "ABCDE") (some "C")).emissions
      ["A", "B", "C"] := by
  have h := C4_join_broadcast_gating c4store [] (some "ABCDE") (some "C") "ABCDE" "C"
    ⟨"g1", "ABCDE", ["A", "B"], "A"⟩ rfl rfl
  exact ⟨h.1, by simpa using h.2.1⟩

/-- C5 (counterexample): a `voting:vote` event on a store holding no
votes leaves the store bit-for-bit unchanged — the handler performs no
persistence at all, so no vote row for the cast `(participant, film)`
exists afterwards, contradicting "the vote is persisted" for the
`voting:vote` event. -/
theorem C5_counterexample :
    votingVoteHandler c5store (some "A") "ABCDE" 1 Verdict.like =
      (c5store, [(Target.toOthers, Event.voteCast (some "A") 1 Verdict.like)]) ∧
    c5store.votes = [] ∧
    findVote c5store "g1" 1 "A" = none := ⟨rfl, rfl, rfl⟩

theorem addVotes_single (store : Store) (row : VoteRow) :
    addVotes store [row] =
      { store with
        votes := store.votes.filter (fun w => !(sameVoteKey w row)) ++ [row] } := rfl

theorem sameVoteKey_self (row : VoteRow) : sameVoteKey row row = true := by
  simp [sameVoteKey]

theorem findVote_addVotes_single (store : Store) (row : VoteRow) :
    findVote (addVotes store [row]) row.groupId row.filmId row.participantId = some row := by
  rw [addVotes_single]
  unfold findVote
  rw [List.find?_append]
  have hnone : (store.votes.filter (fun w => !(sameVoteKey w row))).find?
      (fun w => w.groupId == row.groupId && w.filmId == row.filmId &&
        w.participantId == row.participantId) = none := by
    rw [List.find?_eq_none]
    intro w hw
    have hq := (List.mem_filter.mp hw).2
    intro hp
    rw [Bool.not_eq_true', sameVoteKey] at hq
    exact absurd hp (by rw [hq]; intro hx; cases hx)
  rw [hnone]
  have hself : (fun w => w.groupId == row.groupId && w.filmId == row.filmId &&
      w.participantId == row.participantId) row = true := by simp
  simp [List.find?, hself]

theorem addVotes_single_unique_key (store : Store) (row : VoteRow) :
    ((addVotes store [row]).votes.filter (fun w => sameVoteKey w row)).length = 1 := by
  rw [addVotes_single]
  simp only [List.filter_append]
  have h1 : (store.votes.filter (fun w => !(sameVoteKey w row))).filter
      (fun w => sameVoteKey w row) = [] := by
    rw [List.filter_eq_nil_iff]
    intro w hw
    have hq := (List.mem_filter.mp hw).2
    rw [Bool.not_eq_true'] at hq
    simp [hq]
  rw [h1]
  simp [sameVoteKey_self]

theorem addVotes_preserves_unique (store : Store) (rows : List VoteRow)
    (h : uniqueVoteKeys store.votes) : uniqueVoteKeys (addVotes store rows).votes := by
  induction rows generalizing store with
  | nil => exact h
  | cons r rs ih =>
    have hstep : uniqueVoteKeys
        (store.votes.filter (fun w => !(sameVoteKey w r)) ++ [r]) := by
      rw [uniqueVoteKeys, List.pairwise_append]
      refine ⟨(h : List.Pairwise _ _).sublist (List.filter_sublist _), ?_, ?_⟩
      · exact List.pairwise_singleton _ _
      · intro a ha b hb
        have hq := (List.mem_filter.mp ha).2
        rw [Bool.not_eq_true'] at hq
        rcases List.mem_singleton.mp hb with rfl
        exact hq
    exact ih { store with votes := store.votes.filter (fun w => !(sameVoteKey w r)) ++ [r] } hstep

/-- C5 (amended): the `voting:vote` socket handler only broadcasts
`voting:vote-cast` to the room with the sender excluded and performs no
store write — persistence happens exclusively through the POST votes
route, whose `addVotes` store call (modelled from the spec) upserts by
`(session, film, participant)`: after adding a vote exactly one row
with its key is stored and carries its verdict (last write wins), and
the at-most-one-vote-per-pair invariant is preserved by every bulk
add. -/
theorem C5_vote_broadcast_and_upsert :
    (∀ store r gcode fid v, votingVoteHandler store r gcode fid v =
      (store, [(Target.toOthers, Event.voteCast r fid v)])) ∧
    (∀ store row,
      findVote (addVotes store [row]) row.groupId row.filmId row.participantId = some row ∧
      ((addVotes store [row]).votes.filter (fun w => sameVoteKey w row)).length = 1) ∧
    (∀ store rows, uniqueVoteKeys store.votes → uniqueVoteKeys (addVotes store rows).votes) := by
  refine ⟨fun _ _ _ _ _ => rfl, fun store row => ?_, addVotes_preserves_unique⟩
  exact ⟨findVote_addVotes_single store row, addVotes_single_unique_key store row⟩

/-- C5 witness: the theorem applied to a repeat vote — `A` votes `like`
then `dislike` on film 1; exactly one row remains and it carries
`dislike`. -/
theorem C5_vote_broadcast_and_upsert_witness :
    votingVoteHandler c5store (some "B") "ABCDE" 2 Verdict.dislike =
      (c5store, [(Target.toOthers, Event.voteCast (some "B") 2 Verdict.dislike)]) ∧
    findVote (addVotes (addVotes c5store [⟨"g1", 1, Verdict.like, "A"⟩])
        [⟨"g1", 1, Verdict.dislike, "A"⟩]) "g1" 1 "A" =
      some ⟨"g1", 1, Verdict.dislike, "A"⟩ ∧
    uniqueVoteKeys (addVotes c5store [⟨"g1", 1, Verdict.like, "A"⟩]).votes := by
  refine ⟨C5_vote_broadcast_and_upsert.1 c5store (some "B") "ABCDE" 2 Verdict.dislike, ?_, ?_⟩
  · exact (C5_vote_broadcast_and_upsert.2.1
      (addVotes c5store [⟨"g1", 1, Verdict.like, "A"⟩]) ⟨"g1", 1, Verdict.dislike, "A"⟩).1
  · exact C5_vote_broadcast_and_upsert.2.2 c5store [⟨"g1", 1, Verdict.like, "A"⟩]
      List.Pairwise.nil

theorem getGroupByCode_updateGroupParticipants (s : Store) (gid : String)
    (ps : List String) (code : String) :
    getGroupByCode (updateGroupParticipants s gid ps) code =
      (getGroupByCode s code).map
        (fun g => if g.id == gid then { g with participants := ps } else g) := by
  unfold getGroupByCode updateGroupParticipants
  rw [List.find?_map]
  have hfun : ((fun g : Group => g.code == code) ∘
      (fun g => if g.id == gid then { g with participants := ps } else g)) =
      (fun g : Group => g.code == code) := by
    funext g
    by_cases h : g.id == gid <;> simp [Function.comp, h]
  rw [hfun]

theorem getGroupByCode_updateGroupCreatedBy (s : Store) (gid : String)
    (creator : String) (code : String) :
    getGroupByCode (updateGroupCreatedBy s gid creator) code =
      (getGroupByCode s code).map
        (fun g => if g.id == gid then { g with createdBy := creator } else g) := by
  unfold getGroupByCode updateGroupCreatedBy
  rw [List.find?_map]
  have hfun : ((fun g : Group => g.code == code) ∘
      (fun g => if g.id == gid then { g with createdBy := creator } else g)) =
      (fun g : Group => g.code == code) := by
    funext g
    by_cases h : g.id == gid <;> simp [Function.comp, h]
  rw [hfun]

theorem disconnect_creator_transfer (store : Store) (registry : List String)
    (gc pn : String) (g : Group) (nc : String) (rest : List String)
    (hgc : gc ≠ "") (hpn : pn ≠ "")
    (hg : getGroupByCode store gc = some g)
    (hcr : g.createdBy = pn)
    (hrem : g.participants.filter (fun p => p != pn) = nc :: rest) :
    ∃ g2, getGroupByCode (disconnectHandler store registry (some gc) (some pn)).1 gc =
        some g2 ∧ g2.createdBy = nc ∧
      (Target.toRoom, Event.creatorChanged nc
          ("Права создателя переданы участнику " ++ nc)) ∈
        (disconnectHandler store registry (some gc) (some pn)).2.2 := by
  unfold disconnectHandler
  dsimp only
  rw [if_neg (by simp [hgc, hpn] : ¬((gc == "" || pn == "") = true))]
  rw [hg]
  dsimp only
  rw [if_pos (by simp [hcr] : (g.createdBy == pn) = true)]
  rw [hrem]
  dsimp only
  by_cases hlen : ((nc :: rest).length != g.participants.length) = true
  · rw [if_pos hlen]
    rw [getGroupByCode_updateGroupParticipants, getGroupByCode_updateGroupCreatedBy, hg]
    simp only [Option.map_some', beq_self_eq_true, if_true]
    exact ⟨_, rfl, rfl, by simp⟩
  · rw [if_neg hlen]
    rw [getGroupByCode_updateGroupCreatedBy, hg]
    simp only [Option.map_some', beq_self_eq_true, if_true]
    exact ⟨_, rfl, rfl, by simp⟩

theorem disconnect_no_transfer (store : Store) (registry : List String)
    (gc pn : String) (g : Group)
    (hgc : gc ≠ "") (hpn : pn ≠ "")
    (hg : getGroupByCode store gc = some g)
    (hcr : g.createdBy ≠ pn) :
    ∃ g2 roster,
      getGroupByCode (disconnectHandler store registry (some gc) (some pn)).1 gc =
        some g2 ∧ g2.createdBy = g.createdBy ∧
      (disconnectHandler store registry (some gc) (some pn)).2.2 =
        [(Target.toOthers, Event.participantLeft pn roster)] := by
  unfold disconnectHandler
  dsimp only
  rw [if_neg (by simp [hgc, hpn] : ¬((gc == "" || pn == "") = true))]
  rw [hg]
  dsimp only
  rw [if_neg (by simp [hcr] : ¬((g.createdBy == pn) = true))]
  dsimp only
  by_cases hlen : ((g.participants.filter (fun p => p != pn)).length !=
      g.participants.length) = true
  · rw [if_pos hlen]
    rw [getGroupByCode_updateGroupParticipants, hg]
    simp only [Option.map_some', beq_self_eq_true, if_true]
    refine ⟨_, g.participants.filter (fun p => p != pn), rfl, rfl, ?_⟩
    simp
  · rw [if_neg hlen]
    rw [hg]
    exact ⟨_, _, rfl, rfl, rfl⟩

/-- C6 (confirmed): on disconnect of the persisted creator with a
non-empty remaining roster, `createdBy` is persisted as the first
remaining entry and `group:creator-changed` is broadcast to the room;
on disconnect of a non-creator no reassignment happens and only
`participant-left` goes out; iterating on roster `[A, B, C]` with
creator `A` gives `A` leaves ⟶ creator `B`, then `B` leaves ⟶
creator `C`. -/
theorem C6_creator_failover :
    (∀ store registry gc pn g nc rest, gc ≠ "" → pn ≠ "" →
      getGroupByCode store gc = some g → g.createdBy = pn →
      g.participants.filter (fun p => p != pn) = nc :: rest →
      ∃ g2, getGroupByCode (disconnectHandler store registry (some gc) (some pn)).1 gc =
          some g2 ∧ g2.createdBy = nc ∧
        (Target.toRoom, Event.creatorChanged nc
            ("Права создателя переданы участнику " ++ nc)) ∈
          (disconnectHandler store registry (some gc) (some pn)).2.2) ∧
    (∀ store registry gc pn g, gc ≠ "" → pn ≠ "" →
      getGroupByCode store gc = some g → g.createdBy ≠ pn →
      ∃ g2 roster,
        getGroupByCode (disconnectHandler store registry (some gc) (some pn)).1 gc =
          some g2 ∧ g2.createdBy = g.createdBy ∧
        (disconnectHandler store registry (some gc) (some pn)).2.2 =
          [(Target.toOthers, Event.participantLeft pn roster)]) ∧
    getGroupByCode (disconnectHandler c6store [] (some "ABCDE") (some "A")).1 "ABCDE" =
      some ⟨"g1", "ABCDE", ["B", "C"], "B"⟩ ∧
    getGroupByCode
      (disconnectHandler (disconnectHandler c6store [] (some "ABCDE") (some "A")).1 []
        (some "ABCDE") (some "B")).1 "ABCDE" = some ⟨"g1", "ABCDE", ["C"], "C"⟩ := by
  refine ⟨?_, ?_, by decide, by decide⟩
  · intro store registry gc pn g nc rest hgc hpn hg hcr hrem
    exact disconnect_creator_transfer store registry gc pn g nc rest hgc hpn hg hcr hrem
  · intro store registry gc pn g hgc hpn hg hcr
    exact disconnect_no_transfer store registry gc pn g hgc hpn hg hcr

/-- C6 witness: the theorem's transfer branch applied to the concrete
store — `A` disconnects, `B` inherits. -/
theorem C6_creator_failover_witness :
    ∃ g2, getGroupByCode (disconnectHandler c6store [] (some "ABCDE") (some "A")).1
        "ABCDE" = some g2 ∧ g2.createdBy = "B" ∧
      (Target.toRoom, Event.creatorChanged "B"
          ("Права создателя переданы участнику " ++ "B")) ∈
        (disconnectHandler c6store [] (some "ABCDE") (some "A")).2.2 := by
  exact C6_creator_failover.1 c6store [] "ABCDE" "A" ⟨"g1", "ABCDE", ["A", "B", "C"], "A"⟩
    "B" ["C"] (by decide) (by decide) (by decide) rfl (by decide)

theorem votingStart_gating (store : Store) (req : Option String) (code : String) (g : Group)
    (hg : getGroupByCode store code = some g) :
    ((∃ leader, effectiveCreator g = some leader ∧ req = some leader) →
      votingStartHandler store req code = [(Target.toRoom, Event.votingStarted)]) ∧
    (¬(∃ leader, effectiveCreator g = some leader ∧ req = some leader) →
      votingStartHandler store req code =
        [(Target.toSelf, Event.errorNote "Только создатель группы может начать голосование")]) := by
  unfold votingStartHandler
  rw [hg]
  dsimp only
  cases hec : effectiveCreator g with
  | none =>
    dsimp only
    refine ⟨?_, fun _ => rfl⟩
    rintro ⟨l, hl, -⟩
    exact Option.noConfusion hl
  | some leader =>
    dsimp only
    by_cases hreq : (req == some leader) = true
    · rw [if_pos hreq]
      refine ⟨fun _ => rfl, fun hno => ?_⟩
      exact absurd ⟨leader, rfl, eq_of_beq hreq⟩ hno
    · rw [if_neg hreq]
      refine ⟨?_, fun _ => rfl⟩
      rintro ⟨l, hl, hr⟩
      obtain rfl : leader = l := Option.some.inj hl
      exact absurd (by rw [hr]; simp) hreq

theorem groupReset_gating (store : Store) (r gcode : String) (g : Group)
    (hgc : gcode ≠ "") (hr : r ≠ "")
    (hg : getGroupByCode store gcode = some g) :
    ((∃ leader, effectiveCreator g = some leader ∧ r = leader) →
      groupResetHandler store (some r) (some gcode) =
        (deleteVotesByGroup (deleteFilmsByGroup store g.id) g.id,
          [(Target.toRoom, Event.groupReset "Голосование сброшено создателем")])) ∧
    (¬(∃ leader, effectiveCreator g = some leader ∧ r = leader) →
      groupResetHandler store (some r) (some gcode) =
        (store,
          [(Target.toSelf, Event.errorNote "Только создатель может начать новое голосование")])) := by
  unfold groupResetHandler
  dsimp only
  rw [if_neg (by simp [hgc, hr] : ¬((gcode == "" || r == "") = true))]
  rw [hg]
  dsimp only
  cases hec : effectiveCreator g with
  | none =>
    dsimp only
    refine ⟨?_, fun _ => rfl⟩
    rintro ⟨l, hl, -⟩
    exact Option.noConfusion hl
  | some leader =>
    dsimp only
    by_cases hreq : (r == leader) = true
    · rw [if_pos hreq]
      refine ⟨fun _ => rfl, fun hno => ?_⟩
      exact absurd ⟨leader, rfl, eq_of_beq hreq⟩ hno
    · rw [if_neg hreq]
      refine ⟨?_, fun _ => rfl⟩
      rintro ⟨l, hl, hrr⟩
      obtain rfl : leader = l := Option.some.inj hl
      exact absurd (by rw [hrr]; simp) hreq

/-- C7 (counterexample): session `ABCDE` exists with effective leader
`A`, yet a `group:reset` from a connection that never joined (no stored
participant name) is dropped silently — no error notification is
emitted, contrary to the claim that every non-leader requester receives
one. -/
theorem C7_counterexample :
    groupResetHandler c7store none (some "ABCDE") = (c7store, []) ∧
    effectiveCreator ⟨"g1", "ABCDE", ["A"], "A"⟩ = some "A" := ⟨rfl, by decide⟩

/-- C7 (amended): `voting:start` and `group:reset` act only when the
requester equals the effective leader recomputed from the freshly read
session (persisted `createdBy` when truthy and still rostered, else the
first roster entry, else none); a requester with a joined name that is
not the leader gets an error notification on their own connection with
nothing broadcast and the store untouched — but a `group:reset` whose
payload code or stored requester name is missing or empty is ignored
silently, with no error notification. -/
theorem C7_leader_gating :
    (∀ store req code g, getGroupByCode store code = some g →
      ((∃ leader, effectiveCreator g = some leader ∧ req = some leader) →
        votingStartHandler store req code = [(Target.toRoom, Event.votingStarted)]) ∧
      (¬(∃ leader, effectiveCreator g = some leader ∧ req = some leader) →
        votingStartHandler store req code =
          [(Target.toSelf, Event.errorNote "Только создатель группы может начать голосование")])) ∧
    (∀ store r gcode g, gcode ≠ "" → r ≠ "" → getGroupByCode store gcode = some g →
      ((∃ leader, effectiveCreator g = some leader ∧ r = leader) →
        groupResetHandler store (some r) (some gcode) =
          (deleteVotesByGroup (deleteFilmsByGroup store g.id) g.id,
            [(Target.toRoom, Event.groupReset "Голосование сброшено создателем")])) ∧
      (¬(∃ leader, effectiveCreator g = some leader ∧ r = leader) →
        groupResetHandler store (some r) (some gcode) =
          (store,
            [(Target.toSelf, Event.errorNote "Только создатель может начать новое голосование")]))) ∧
    (∀ store gcode, groupResetHandler store none gcode = (store, []) ∧
      groupResetHandler store none none = (store, [])) := by
  refine ⟨?_, ?_, ?_⟩
  · intro store req code g hg
    exact votingStart_gating store req code g hg
  · intro store r gcode g hgc hr hg
    exact groupReset_gating store r gcode g hgc hr hg
  · intro store gcode
    constructor
    · cases gcode <;> rfl
    · rfl

/-- C7 witness: the theorem applied to session `ABCDE` — leader `A` may
start, non-leader `B` is refused with an error to itself only. -/
theorem C7_leader_gating_witness :
    votingStartHandler c7store (some "A") "ABCDE" = [(Target.toRoom, Event.votingStarted)] ∧
    groupResetHandler c7store (some "B") (some "ABCDE") =
      (c7store,
        [(Target.toSelf, Event.errorNote "Только создатель может начать новое голосование")]) := by
  have h1 := (C7_leader_gating.1 c7store (some "A") "ABCDE"
    ⟨"g1", "ABCDE", ["A"], "A"⟩ (by decide)).1 ⟨"A", by decide, rfl⟩
  have h2 := (C7_leader_gating.2.1 c7store "B" "ABCDE"
    ⟨"g1", "ABCDE", ["A"], "A"⟩ (by decide) (by decide) (by decide)).2 ?_
  · exact ⟨h1, h2⟩
  · rintro ⟨l, hl, hrr⟩
    have hla : l = "A" := by
      have h3 := (by decide : effectiveCreator ⟨"g1", "ABCDE", ["A"], "A"⟩ = some "A").symm.trans hl
      exact (Option.some.inj h3.symm)
    rw [hla] at hrr
    exact absurd hrr (by decide)

/-- C8 (confirmed): an authorized `group:reset` leaves the `groups`
collection — in particular `participants` and `createdBy` — bit-for-bit
unchanged, removes exactly the session's film rows and vote rows
(other sessions' rows survive via the filter equations), leaves the
session with an empty catalog and vote set, and broadcasts
`group:reset` to the room. -/
theorem C8_reset_frame (store : Store) (r gcode : String) (g : Group)
    (hgc : gcode ≠ "") (hr : r ≠ "")
    (hg : getGroupByCode store gcode = some g)
    (hleader : effectiveCreator g = some r) :
    (groupResetHandler store (some r) (some gcode)).1.groups = store.groups ∧
    (groupResetHandler store (some r) (some gcode)).1.films =
      store.films.filter (fun fr => fr.groupId != g.id) ∧
    (groupResetHandler store (some r) (some gcode)).1.votes =
      store.votes.filter (fun vr => vr.groupId != g.id) ∧
    getFilmsByGroup (groupResetHandler store (some r) (some gcode)).1 g.id = [] ∧
    getVotesByGroup (groupResetHandler store (some r) (some gcode)).1 g.id = [] ∧
    (groupResetHandler store (some r) (some gcode)).2 =
      [(Target.toRoom, Event.groupReset "Голосование сброшено создателем")] := by
  have hrun := (groupReset_gating store r gcode g hgc hr hg).1 ⟨r, hleader, rfl⟩
  rw [hrun]
  refine ⟨rfl, rfl, rfl, ?_, ?_, rfl⟩
  · unfold getFilmsByGroup deleteVotesByGroup deleteFilmsByGroup
    dsimp only
    rw [show (store.films.filter (fun fr => fr.groupId != g.id)).filter
        (fun rr => rr.groupId == g.id) = [] by
      rw [List.filter_eq_nil_iff]
      intro a ha
      have h2 := (List.mem_filter.mp ha).2
      simp only [bne_iff_ne, ne_eq] at h2
      simp [h2]]
    rfl
  · unfold getVotesByGroup deleteVotesByGroup deleteFilmsByGroup
    dsimp only
    rw [show (store.votes.filter (fun vr => vr.groupId != g.id)).filter
        (fun rr => rr.groupId == g.id) = [] by
      rw [List.filter_eq_nil_iff]
      intro a ha
      have h2 := (List.mem_filter.mp ha).2
      simp only [bne_iff_ne, ne_eq] at h2
      simp [h2]]
    rfl

/-- C8 witness: the theorem applied to `c8store` — after `A` resets
session `ABCDE`, the roster record is unchanged and the session's films
are gone. -/
theorem C8_reset_frame_witness :
    (groupResetHandler c8store (some "A") (some "ABCDE")).1.groups = c8store.groups ∧
    getFilmsByGroup (groupResetHandler c8store (some "A") (some "ABCDE")).1 "g1" = [] := by
  have h := C8_reset_frame c8store "A" "ABCDE" ⟨"g1", "ABCDE", ["A"], "A"⟩
    (by decide) (by decide) (by decide) (by decide)
  exact ⟨h.1, h.2.2.2.1⟩

end FlickPick
